import Mathlib

/-!
Shallow embedding of the SurfFree reverse proxy
(src/vsurfree/lib/python2.7/site-packages/dproxy/views.py).

Python strings are modelled as `List Char` (the code is Python 2, all the
inputs the proxy handles are byte strings; the embedding treats one byte /
one character uniformly as `Char`).  Each definition carries the line
numbers of the code it embeds.
-/

/-- Python strings, modelled as lists of characters. -/
abbrev Str := List Char

/-- Python `s.lstrip('/')`: drop every leading slash. -/
def pyLstripSlash (s : Str) : Str := s.dropWhile (fun c => c == '/')

/-- Python `s.rstrip('/')`: drop every trailing slash. -/
def pyRstripSlash (s : Str) : Str := (s.reverse.dropWhile (fun c => c == '/')).reverse

/-- Python whitespace, as stripped by `str.lstrip()` with no argument:
space, tab, newline, carriage return, vertical tab, form feed. -/
def pyIsSpace (c : Char) : Bool :=
  c == ' ' || c == '\t' || c == '\n' || c == '\r' || c == Char.ofNat 11 || c == Char.ofNat 12

/-- Python `s.lstrip()` with no argument: drop leading whitespace.  This is
what line 158 of views.py applies to `self.base_url` (it is NOT
`rstrip('/')`). -/
def pyLstrip (s : Str) : Str := s.dropWhile pyIsSpace

/-- Core loop of Python `s.replace(pat, rep)` for a non-empty `pat`:
scan left to right, replace each non-overlapping occurrence.  The fuel is
one unit per emitted position; since every step consumes at least one
character, fuel `s.length` (supplied by `pyReplace`) never runs out, so the
`0` case with a non-empty list is unreachable there. -/
def replaceLoop : Nat → Str → Str → Str → Str
  | _, _, _, [] => []
  | 0, _, _, l => l
  | n + 1, pat, rep, c :: cs =>
    if pat.isPrefixOf (c :: cs) then
      rep ++ replaceLoop n pat rep (cs.drop (pat.length - 1))
    else
      c :: replaceLoop n pat rep cs

/-- Python `s.replace(pat, rep)`.  For an empty pattern Python inserts
`rep` at every position, including both ends. -/
def pyReplace (s pat rep : Str) : Str :=
  if pat = [] then rep ++ (s.map (fun c => c :: rep)).flatten
  else replaceLoop s.length pat rep s

/-- Characters Python 2 `urllib.quote_plus` never encodes: letters, digits,
underscore, dot, hyphen. -/
def urlSafeChar (c : Char) : Bool :=
  c.isAlphanum || c == '_' || c == '.' || c == '-'

/-- Uppercase hexadecimal digit of a value below 16. -/
def hexDigit (n : Nat) : Char :=
  if n < 10 then Char.ofNat (48 + n) else Char.ofNat (55 + n)

/-- UTF-8 bytes of a code point (as natural numbers). -/
def utf8Bytes (n : Nat) : List Nat :=
  if n < 128 then [n]
  else if n < 2048 then [192 + n / 64, 128 + n % 64]
  else if n < 65536 then [224 + n / 4096, 128 + (n / 64) % 64, 128 + n % 64]
  else [240 + n / 262144, 128 + (n / 4096) % 64, 128 + (n / 64) % 64, 128 + n % 64]

/-- Python 2 `urllib.quote_plus` on one character: safe characters pass
through, a space becomes `+`, anything else is percent-encoded bytewise. -/
def quotePlusChar (c : Char) : Str :=
  if urlSafeChar c then [c]
  else if c == ' ' then ['+']
  else ((utf8Bytes c.toNat).map (fun b => ['%', hexDigit (b / 16), hexDigit (b % 16)])).flatten

/-- Python 2 `urllib.quote_plus` on a whole string. -/
def quotePlus (s : Str) : Str := (s.map quotePlusChar).flatten

/-- An ordered multi-valued query (or form) parameter mapping, as Django's
`QueryDict` holds it: keys in order, each with its list of values. -/
abbrev QueryParams := List (Str × List Str)

/-- Django `QueryDict.urlencode()`: every `key=value` pair in order, joined
by `&`, keys and values quoted.  A key whose value list is empty
contributes nothing. -/
def urlencodeParams (q : QueryParams) : Str :=
  List.intercalate ['&']
    ((q.map (fun kv => kv.2.map (fun v => quotePlus kv.1 ++ '=' :: quotePlus v))).flatten)

/-- Lines 152-160 (`DProxy.get_full_url`): the upstream URL.
`param_str = self.request.GET.urlencode()`; `url = url.lstrip('/')`;
`request_url = u'%s/%s' % (self.base_url.lstrip(), url)` — note the code
calls `lstrip()` (leading whitespace) on the base URL, not `rstrip('/')` —
then `request_url += '?%s' % param_str if param_str else ''`. -/
def get_full_url (base_url url : Str) (getParams : QueryParams) : Str :=
  let param_str := urlencodeParams getParams
  let u := pyLstripSlash url
  let request_url := pyLstrip base_url ++ '/' :: u
  request_url ++ (if param_str = [] then [] else '?' :: param_str)

/-- Lines 62-75 (`DProxy.normalize_request`): prepend `/` to the captured
url fragment unless it already starts with one; the result replaces
`request.path`. -/
def normalize_request (url : Str) : Str :=
  if List.isPrefixOf (('/') :: []) url then url else ('/') :: url

/-- Line 134: `self.base_url.replace('http://', '').replace('https://', '').rstrip('/')`. -/
def strippedBaseUrl (base_url : Str) : Str :=
  pyRstripSlash (pyReplace (pyReplace base_url ("http://".data) []) ("https://".data) [])

/-- Lines 131-136 (`DProxy.raw_rewrite`): when `rewrite` is set, replace
every occurrence of the inbound host (`request.META['HTTP_HOST']`) in
`content` by the scheme-stripped, slash-stripped base URL; otherwise return
`content` unchanged. -/
def raw_rewrite (rw : Bool) (base_url host content : Str) : Str :=
  if rw then pyReplace content host (strippedBaseUrl base_url) else content

/-- Python `d[k]` / `k in d` on a mapping modelled as an association list:
the first binding of the key, if any. -/
def metaLookup (m : List (Str × Str)) (k : Str) : Option Str :=
  match m with
  | [] => none
  | kv :: rest => if kv.1 = k then some kv.2 else metaLookup rest k

def hReferer : Str := "HTTP_REFERER".data
def hOrigin : Str := "HTTP_ORIGIN".data
def hUserAgent : Str := "HTTP_USER_AGENT".data
def hXRequestedWith : Str := "HTTP_X_REQUESTED_WITH".data
def kReferer : Str := "Referer".data
def kOrigin : Str := "Origin".data
def kUserAgent : Str := "User-Agent".data
def kXRequestedWith : Str := "X-Requested-With".data
def kHost : Str := "Host".data
def kCookie : Str := "Cookie".data
def kContentLength : Str := "Content-Length".data
def kContentType : Str := "Content-Type".data
def kLocation : Str := "Location".data

/-- Lines 105-115 (`DProxy.get_header`): the outbound header mapping.
`Referer` and `Origin` pass through `raw_rewrite`; `User-Agent` and
`X-Requested-With` are copied verbatim; nothing else is ever added. -/
def get_header (rw : Bool) (base_url host : Str) (meta : List (Str × Str)) :
    List (Str × Str) :=
  (match metaLookup meta hReferer with
   | some v => [(kReferer, raw_rewrite rw base_url host v)]
   | none => []) ++
  (match metaLookup meta hOrigin with
   | some v => [(kOrigin, raw_rewrite rw base_url host v)]
   | none => []) ++
  (match metaLookup meta hUserAgent with
   | some v => [(kUserAgent, v)]
   | none => []) ++
  (match metaLookup meta hXRequestedWith with
   | some v => [(kXRequestedWith, v)]
   | none => [])

/-- One cookie of the jar, as the spec's round-trip clause identifies
cookies: name, value, domain, path. -/
structure Cookie where
  name : Str
  value : Str
  domain : Str
  path : Str
deriving DecidableEq

/-- The per-client upstream session: an opaque serializable cookie jar
(`requests.Session`). -/
structure Session where
  cookies : List Cookie
deriving DecidableEq

/-- Line 97: `requests.Session()`, a fresh session with an empty cookie jar. -/
def Session.fresh : Session := ⟨[]⟩

/-- Modelled from the spec: the serialized session blob produced by
`utils.serializer.serialize_session` (the `utils` package is not under
src/).  The spec calls the format opaque but self-describing enough to
detect version or format mismatches safely, so a stored payload is either
a readable serialized session or an unreadable (corrupt or incompatible)
blob the deserializer detects. -/
inductive StoredPayload where
  | ok (s : Session)
  | corrupt (blob : Str)
deriving DecidableEq

/-- Modelled from the spec: `utils.serializer.serialize_session` (not under
src/), which the round-trip clause requires to be inverted by
deserialization. -/
def serialize_session (s : Session) : StoredPayload := StoredPayload.ok s

/-- Modelled from the spec: `utils.serializer.deserialize_session` (not
under src/).  Per spec section 4.2, deserialization failure on a corrupt or
incompatible payload must not crash the pipeline: the fallback is a fresh
empty session, and `DProxy.get_session` (lines 95-100) adds no error
handling of its own, so the fallback has to live here. -/
def deserialize_session : StoredPayload → Session
  | StoredPayload.ok s => s
  | StoredPayload.corrupt _ => Session.fresh

/-- Lines 95-100 (`DProxy.get_session`): a fresh `requests.Session()` when
`request.session` has no `'proxy'` entry, otherwise the deserialized stored
payload. -/
def get_session : Option StoredPayload → Session
  | none => Session.fresh
  | some p => deserialize_session p

/-- The upstream HTTP response as requests returns it (`r`):
`r.status_code`, `r.content`, `r.headers`. -/
structure UpstreamResult where
  status_code : Nat
  content : Str
  headers : List (Str × Str)
deriving DecidableEq

/-- A network or connection failure raised by the requests transport
(distinct from any valid upstream HTTP response). -/
structure NetworkError where
  msg : Str
deriving DecidableEq

/-- The Django `HttpResponse` the proxy hands back. -/
structure ProxyResponse where
  status : Nat
  body : Str
  content_type : Str
  location : Option Str
deriving DecidableEq

/-- Lines 126-129 and 147-150: build the `HttpResponse` from the upstream
result.  `content_type=r.headers['Content-Type']` indexes the header dict
unconditionally, so a response without a `Content-Type` header raises
`KeyError` and no `HttpResponse` is built — modelled as `none`.  The
`Location` header is copied exactly when present. -/
def make_http_response (r : UpstreamResult) : Option ProxyResponse :=
  match metaLookup r.headers kContentType with
  | none => none
  | some ct => some ⟨r.status_code, r.content, ct, metaLookup r.headers kLocation⟩

/-- The requests transport, an external collaborator: called with the
`allow_redirects` flag, the URL, the extra parameters (query parameters for
GET, form data for POST), the outbound headers and the session; it returns
a network error or the upstream result together with the session as the
call left it (cookies updated). -/
abbrev Transport :=
  Bool → Str → QueryParams → List (Str × Str) → Session →
    Except NetworkError (UpstreamResult × Session)

/-- Lines 117-129 (`DProxy.get`): load the session, build the full URL from
the normalized path and `request.GET`, build the headers, call
`self.session.get(request_url, params=request.GET, headers=headers,
allow_redirects=False)` — the query parameters are passed to the transport
again even though `get_full_url` already embedded them — then
`save_session` (line 124) and only after that build the response.  A
transport error propagates before `save_session` runs, leaving the stored
payload untouched; a missing upstream `Content-Type` raises after the save,
so the saved store with no response is `(.ok none, some ...)`. -/
def dproxy_get (t : Transport) (rw : Bool) (base_url url : Str)
    (getParams : QueryParams) (host : Str) (meta : List (Str × Str))
    (store : Option StoredPayload) :
    Except NetworkError (Option ProxyResponse) × Option StoredPayload :=
  match t false (get_full_url base_url url getParams) getParams
      (get_header rw base_url host meta) (get_session store) with
  | Except.error e => (Except.error e, store)
  | Except.ok rs =>
      (Except.ok (make_http_response rs.1), some (serialize_session rs.2))

/-- Lines 138-150 (`DProxy.post`): same pipeline as `dproxy_get` but the
transport call is `self.session.post(request_url, data=request.POST, ...)`;
the URL still embeds `request.GET` (line 140 calls `get_full_url`, line 156
reads `self.request.GET`). -/
def dproxy_post (t : Transport) (rw : Bool) (base_url url : Str)
    (getParams formParams : QueryParams) (host : Str)
    (meta : List (Str × Str)) (store : Option StoredPayload) :
    Except NetworkError (Option ProxyResponse) × Option StoredPayload :=
  match t false (get_full_url base_url url getParams) formParams
      (get_header rw base_url host meta) (get_session store) with
  | Except.error e => (Except.error e, store)
  | Except.ok rs =>
      (Except.ok (make_http_response rs.1), some (serialize_session rs.2))

/-- Documented behavior of the requests transport (an external
collaborator): `params` passed to `session.get` are url-encoded and merged
into the URL — appended after `&` when the URL already carries a query
(anything after a `?`), after `?` otherwise.  Fragments are not modelled. -/
def requests_effective_url (url : Str) (params : QueryParams) : Str :=
  let enc := urlencodeParams params
  if enc = [] then url
  else if url.contains '?' then url ++ '&' :: enc
  else url ++ '?' :: enc

/-- The URL the upstream actually receives on a GET: line 121 passes both
the already-built `request_url` and `params=request.GET` to the transport,
which merges the parameters into the URL a second time. -/
def upstream_get_url (base_url url : Str) (getParams : QueryParams) : Str :=
  requests_effective_url (get_full_url base_url url getParams) getParams

/-- Lines 38-50 and Django's `View.as_view` contract used on line 29 of the
class docstring: registering a mount merely stores the configured
attributes (`base_url` defaults to `None`, `rewrite` to `False`); no
validation of any kind runs at configuration time. -/
structure DProxyConfig where
  base_url : Option Str
  rewrite : Bool
deriving DecidableEq

/-- Mount registration (`DProxy.as_view(base_url=..., rewrite=...)`): the
attributes are stored as given; registration never fails. -/
def as_view (base_url : Option Str) (rw : Bool) : DProxyConfig := ⟨base_url, rw⟩

/-- The double-quote character (code point 34). -/
def dquoteChar : Char := Char.ofNat 34

/-- The single-quote character (code point 39). -/
def squoteChar : Char := Char.ofNat 39

/-- Line 16: the literal texts group 1 of
`REWRITE_REGEX = re.compile(r'((?:src|action|href)=["\x27])/(?!\/)')`
can match: an attribute name, `=`, and one of the two quote characters.
At any position of the body at most one of the six can match. -/
def rewritePatterns : List Str :=
  [ ['s', 'r', 'c', '=', dquoteChar],
    ['s', 'r', 'c', '=', squoteChar],
    ['a', 'c', 't', 'i', 'o', 'n', '=', dquoteChar],
    ['a', 'c', 't', 'i', 'o', 'n', '=', squoteChar],
    ['h', 'r', 'e', 'f', '=', dquoteChar],
    ['h', 'r', 'e', 'f', '=', squoteChar] ]

/-- Whether `REWRITE_REGEX` matches at the head of `l` with group 1 equal
to `p`: `p` is a prefix, the next character is `/`, and — the negative
lookahead `(?!\/)` — the character after that is not another `/`. -/
def regexHit (p l : Str) : Bool :=
  p.isPrefixOf l && (('/') :: []).isPrefixOf (l.drop p.length)
    && !((('/') :: ('/') :: []).isPrefixOf (l.drop p.length))

/-- Line 88: `REWRITE_REGEX.sub(r'\1{}/'.format(proxy_root), content)`.
`re.sub` scans left to right; at each match it emits group 1, then
`proxy_root`, then the matched `/`, and resumes after the matched text;
elsewhere it copies the character.  (The model covers `proxy_root` values
free of `str.format` braces and of backslashes, which `re.sub` would treat
as replacement escapes — see `plainRewriteRoot`.) -/
def regexSub (root : Str) : Str → Str
  | [] => []
  | c :: cs =>
    match rewritePatterns.find? (fun p => regexHit p (c :: cs)) with
    | some p => p ++ root ++ ('/') :: regexSub root (cs.drop p.length)
    | none => c :: regexSub root cs
termination_by l => l.length
decreasing_by
  · simp only [List.length_drop, List.length_cons]
    omega
  · simp only [List.length_cons]
    omega

/-- Structural-fuel evaluator for `regexSub`, equal to it whenever the fuel
covers the input length (`regexSub_eq_fuel`); it lets closed bodies be
evaluated by `decide`. -/
def regexSubF : Nat → Str → Str → Str
  | _, _, [] => []
  | 0, _, l => l
  | n + 1, root, c :: cs =>
    match rewritePatterns.find? (fun p => regexHit p (c :: cs)) with
    | some p => p ++ root ++ ('/') :: regexSubF n root (cs.drop p.length)
    | none => c :: regexSubF n root cs

/-- A `proxy_root` value on which the `format`-and-`sub` composite of line
88 is the plain insertion `regexSub` models: no backslash (a `re.sub`
replacement escape) and no brace (a `str.format` field). -/
def plainRewriteRoot (root : Str) : Bool :=
  root.all (fun c => !(c == Char.ofNat 92 || c == Char.ofNat 123 || c == Char.ofNat 125))

/-- Python `s.rsplit(sep, 1)[0]` for a non-empty `sep`: everything before
the last occurrence of `sep` in `s`, or all of `s` when `sep` does not
occur. -/
def pyRsplitBefore (s sep : Str) : Str :=
  match ((List.range (s.length + 1)).filter (fun i => sep.isPrefixOf (s.drop i))).getLast? with
  | some i => s.take i
  | none => s

/-- Line 87: `proxy_root = self.original_request_path.rsplit(request.path, 1)[0]` —
everything of the originally requested path before the last occurrence of
the normalized path. -/
def proxy_root (original_request_path path : Str) : Str :=
  pyRsplitBefore original_request_path path

/-- Lines 77-93 (`DProxy.rewrite_response`): insert `proxy_root` after
every matched attribute-quote-slash, then replace every occurrence of the
slash-stripped base URL by the slash-stripped inbound host
(`request.META['HTTP_HOST'].rstrip('/')`). -/
def rewrite_response (base_url host original_request_path path content : Str) : Str :=
  let root := proxy_root original_request_path path
  let c1 := regexSub root content
  pyReplace c1 (pyRstripSlash base_url) (pyRstripSlash host)

/-! Helper lemmas. -/

/-- Membership characterization of the outbound header mapping: a pair is
in `get_header`'s output exactly when it is one of the four derived
headers. -/
theorem get_header_mem_iff (rw : Bool) (b host : Str) (meta : List (Str × Str))
    (k v : Str) :
    ((k, v) ∈ get_header rw b host meta) ↔
      ((k = kReferer ∧ ∃ r, metaLookup meta hReferer = some r ∧ v = raw_rewrite rw b host r)
       ∨ (k = kOrigin ∧ ∃ o, metaLookup meta hOrigin = some o ∧ v = raw_rewrite rw b host o)
       ∨ (k = kUserAgent ∧ metaLookup meta hUserAgent = some v)
       ∨ (k = kXRequestedWith ∧ metaLookup meta hXRequestedWith = some v)) := by
  unfold get_header
  cases hR : metaLookup meta hReferer <;> cases hO : metaLookup meta hOrigin <;>
    cases hU : metaLookup meta hUserAgent <;> cases hX : metaLookup meta hXRequestedWith <;>
      simp [List.mem_append, Prod.ext_iff, eq_comm]

/-- With enough fuel, the structural evaluator agrees with `regexSub`. -/
theorem regexSub_eq_fuel : ∀ (n : Nat) (l : Str), l.length ≤ n →
    ∀ root, regexSub root l = regexSubF n root l := by
  intro n
  induction n with
  | zero =>
    intro l hl root
    have : l = [] := List.length_eq_zero.mp (Nat.le_zero.mp hl)
    subst this
    simp [regexSub, regexSubF]
  | succ n ih =>
    intro l hl root
    match l with
    | [] => simp [regexSub, regexSubF]
    | c :: cs =>
      rw [regexSub, regexSubF]
      cases h : rewritePatterns.find? (fun p => regexHit p (c :: cs)) with
      | none =>
        simp only []
        rw [ih cs (by simpa using hl) root]
      | some p =>
        simp only []
        rw [ih (cs.drop p.length)
          (by simp only [List.length_drop, List.length_cons] at hl ⊢; omega) root]

/-- One unfolding step of `regexSub` on a non-empty body. -/
theorem regexSub_cons (root : Str) (c : Char) (cs : Str) :
    regexSub root (c :: cs) =
      match rewritePatterns.find? (fun p => regexHit p (c :: cs)) with
      | some p => p ++ root ++ ('/') :: regexSub root (cs.drop p.length)
      | none => c :: regexSub root cs := by
  rw [regexSub]

/-- At an attribute whose quoted value starts with a single slash, the
substitution inserts `root` right after the opening quote and continues on
the remainder. -/
theorem regexSub_head_match (root p t : Str) (hp : p ∈ rewritePatterns)
    (ht : List.isPrefixOf (('/') :: []) t = false) :
    regexSub root (p ++ ('/') :: t) = p ++ root ++ ('/') :: regexSub root t := by
  simp only [rewritePatterns, List.mem_cons, List.not_mem_nil, or_false] at hp
  rcases hp with rfl | rfl | rfl | rfl | rfl | rfl <;>
  · simp only [List.cons_append, List.nil_append]
    rw [regexSub_cons]
    simp [rewritePatterns, regexHit, List.isPrefixOf, List.find?, ht, dquoteChar,
      squoteChar, List.drop]

/-- At an attribute whose quoted value starts with two slashes (a
protocol-relative reference) the substitution leaves everything in place. -/
theorem regexSub_skip_protocol (root p t : Str) (hp : p ∈ rewritePatterns) :
    regexSub root (p ++ ('/') :: ('/') :: t) = p ++ ('/') :: ('/') :: regexSub root t := by
  simp only [rewritePatterns, List.mem_cons, List.not_mem_nil, or_false] at hp
  rcases hp with rfl | rfl | rfl | rfl | rfl | rfl <;>
  · simp only [List.cons_append, List.nil_append]
    simp [regexSub_cons, rewritePatterns, regexHit, List.isPrefixOf, List.find?, dquoteChar,
      squoteChar, List.drop]

/-! Claim theorems. -/

/-- C1: evaluation of the code at the spec's own example.  The claim says
`buildURL("http://up.example/", "a/b", {q: ["1"]}) = "http://up.example/a/b?q=1"`,
but line 158 applies `lstrip()` (leading whitespace) to the base URL
instead of stripping its trailing `/`, so the built URL carries a double
slash; the trailing-slash-free base shows the rest of the contract (join,
leading-slash strip, `?` exactly when the encoding is non-empty) is what
the code does. -/
theorem get_full_url_keeps_trailing_slash :
    get_full_url ("http://up.example/".data) ("a/b".data) [(("q".data), [("1".data)])]
        = ("http://up.example//a/b?q=1".data)
    ∧ ("http://up.example//a/b?q=1".data) ≠ ("http://up.example/a/b?q=1".data)
    ∧ get_full_url ("http://up.example/".data) ("a/b".data) [] = ("http://up.example//a/b".data)
    ∧ get_full_url ("http://up.example".data) ("a/b".data) [(("q".data), [("1".data)])]
        = ("http://up.example/a/b?q=1".data) := by
  decide

/-- C2: for every corrupt stored payload, `get_session` yields the fresh
empty-cookie-jar session (and, being a total function, raises nothing): the
request proceeds. -/
theorem get_session_corrupt_payload_fresh :
    (∀ blob : Str, get_session (some (StoredPayload.corrupt blob)) = Session.fresh)
    ∧ (∀ blob : Str, (get_session (some (StoredPayload.corrupt blob))).cookies = [])
    ∧ get_session none = Session.fresh :=
  ⟨fun _ => rfl, fun _ => rfl, rfl⟩

/-- C3: evaluation of the GET pipeline at the spec's end-to-end example.
With `baseURL = "http://origin.example/"` and mount path `/proxy/page?x=1`
the upstream URL is NOT `http://origin.example/page?x=1`: the unstripped
trailing slash yields `//page`, and because line 121 passes
`params=request.GET` to the transport on top of the query `get_full_url`
already embedded, `x=1` is carried twice. -/
theorem upstream_get_url_double_slash_and_params :
    upstream_get_url ("http://origin.example/".data) (normalize_request ("page".data))
        [(("x".data), [("1".data)])] = ("http://origin.example//page?x=1&x=1".data)
    ∧ ("http://origin.example//page?x=1&x=1".data) ≠ ("http://origin.example/page?x=1".data)
    ∧ get_full_url ("http://origin.example/".data) (normalize_request ("page".data))
        [(("x".data), [("1".data)])] = ("http://origin.example//page?x=1".data) := by
  decide

/-- C4 counterexample: a 302 upstream response that carries a `Location`
header but no `Content-Type` produces no proxy response at all — line 126
indexes `r.headers['Content-Type']` unconditionally, raising `KeyError` —
so neither the status nor the `Location` header is passed through. -/
theorem make_http_response_missing_content_type :
    make_http_response ⟨302, [], [(kLocation, ("/other".data))]⟩ = none
    ∧ metaLookup ([(kLocation, ("/other".data))]) kLocation = some ("/other".data) := by
  decide

/-- C4 (amended): for every 3xx upstream response that carries a
`Content-Type` header, the proxy response keeps the upstream status code
and body and copies a present `Location` header verbatim; the handlers only
ever invoke the transport with `allow_redirects = False`, so redirects are
never followed; and the concrete 302-with-Location case passes through. -/
theorem redirect_passthrough :
    (∀ r : UpstreamResult, 300 ≤ r.status_code → r.status_code < 400 →
      ∀ ct, metaLookup r.headers kContentType = some ct →
      ∃ resp, make_http_response r = some resp ∧ resp.status = r.status_code ∧
        resp.body = r.content ∧
        ∀ loc, metaLookup r.headers kLocation = some loc → resp.location = some loc)
    ∧ (∀ (t t' : Transport) (rw : Bool) (b url : Str) (gp fp : QueryParams) (host : Str)
        (meta : List (Str × Str)) (store : Option StoredPayload),
        (∀ u ps hs s, t false u ps hs s = t' false u ps hs s) →
        dproxy_get t rw b url gp host meta store = dproxy_get t' rw b url gp host meta store
        ∧ dproxy_post t rw b url gp fp host meta store
            = dproxy_post t' rw b url gp fp host meta store)
    ∧ (∃ resp, make_http_response
          ⟨302, ("x".data), [(kContentType, ("text/html".data)), (kLocation, ("/other".data))]⟩
          = some resp ∧ resp.status = 302 ∧ resp.location = some ("/other".data)) := by
  refine ⟨?_, ?_, ?_⟩
  · intro r _ _ ct hct
    refine ⟨⟨r.status_code, r.content, ct, metaLookup r.headers kLocation⟩, ?_, rfl, rfl, ?_⟩
    · simp [make_http_response, hct]
    · intro loc hl
      simpa using hl
  · intro t t' rw b url gp fp host meta store h
    constructor <;> simp only [dproxy_get, dproxy_post, h]
  · exact ⟨⟨302, ("x".data), ("text/html".data), some ("/other".data)⟩, by decide, rfl, rfl⟩

/-- C5: the outbound header mapping holds exactly the four derived headers:
every member's key is one of `Referer`, `Origin`, `User-Agent`,
`X-Requested-With`; each of the four appears (with `Referer`/`Origin`
passed through `raw_rewrite` and the other two verbatim) exactly when the
inbound request carries it; and `Host`, `Cookie` and `Content-Length` are
never in the mapping.  The two closed conjuncts evaluate a concrete
inbound request with rewriting off and on. -/
theorem get_header_exact :
    (∀ (rw : Bool) (b host : Str) (meta : List (Str × Str)) (k v : Str),
        (k, v) ∈ get_header rw b host meta →
          k = kReferer ∨ k = kOrigin ∨ k = kUserAgent ∨ k = kXRequestedWith)
    ∧ (∀ (rw : Bool) (b host : Str) (meta : List (Str × Str)) (r : Str),
        metaLookup meta hReferer = some r →
        (kReferer, raw_rewrite rw b host r) ∈ get_header rw b host meta)
    ∧ (∀ (rw : Bool) (b host : Str) (meta : List (Str × Str)) (o : Str),
        metaLookup meta hOrigin = some o →
        (kOrigin, raw_rewrite rw b host o) ∈ get_header rw b host meta)
    ∧ (∀ (rw : Bool) (b host : Str) (meta : List (Str × Str)) (u : Str),
        metaLookup meta hUserAgent = some u →
        (kUserAgent, u) ∈ get_header rw b host meta)
    ∧ (∀ (rw : Bool) (b host : Str) (meta : List (Str × Str)) (x : Str),
        metaLookup meta hXRequestedWith = some x →
        (kXRequestedWith, x) ∈ get_header rw b host meta)
    ∧ (∀ (rw : Bool) (b host : Str) (meta : List (Str × Str)) (v : Str),
        (kReferer, v) ∈ get_header rw b host meta →
        ∃ r, metaLookup meta hReferer = some r ∧ v = raw_rewrite rw b host r)
    ∧ (∀ (rw : Bool) (b host : Str) (meta : List (Str × Str)) (v : Str),
        (kOrigin, v) ∈ get_header rw b host meta →
        ∃ o, metaLookup meta hOrigin = some o ∧ v = raw_rewrite rw b host o)
    ∧ (∀ (rw : Bool) (b host : Str) (meta : List (Str × Str)) (v : Str),
        (kUserAgent, v) ∈ get_header rw b host meta →
        metaLookup meta hUserAgent = some v)
    ∧ (∀ (rw : Bool) (b host : Str) (meta : List (Str × Str)) (v : Str),
        (kXRequestedWith, v) ∈ get_header rw b host meta →
        metaLookup meta hXRequestedWith = some v)
    ∧ (∀ (rw : Bool) (b host : Str) (meta : List (Str × Str)) (v : Str),
        ¬((kHost, v) ∈ get_header rw b host meta)
        ∧ ¬((kCookie, v) ∈ get_header rw b host meta)
        ∧ ¬((kContentLength, v) ∈ get_header rw b host meta))
    ∧ get_header false ("http://origin.example/".data) ("proxy.local".data)
        [(hReferer, ("http://proxy.local/a".data)), (hUserAgent, ("UA1".data)),
         (("HTTP_HOST".data), ("proxy.local".data)), (("HTTP_COOKIE".data), ("sid=9".data)),
         (("CONTENT_LENGTH".data), ("12".data))]
        = [(kReferer, ("http://proxy.local/a".data)), (kUserAgent, ("UA1".data))]
    ∧ get_header true ("http://origin.example/".data) ("proxy.local".data)
        [(hReferer, ("http://proxy.local/a".data))]
        = [(kReferer, ("http://origin.example/a".data))] := by
  refine ⟨?_, ?_, ?_, ?_, ?_, ?_, ?_, ?_, ?_, ?_, by decide, by decide⟩
  · intro rw b host meta k v h
    rcases (get_header_mem_iff rw b host meta k v).mp h with
      ⟨hk, _⟩ | ⟨hk, _⟩ | ⟨hk, _⟩ | ⟨hk, _⟩
    · exact Or.inl hk
    · exact Or.inr (Or.inl hk)
    · exact Or.inr (Or.inr (Or.inl hk))
    · exact Or.inr (Or.inr (Or.inr hk))
  · intro rw b host meta r hr
    exact (get_header_mem_iff rw b host meta kReferer (raw_rewrite rw b host r)).mpr
      (Or.inl ⟨rfl, r, hr, rfl⟩)
  · intro rw b host meta o ho
    exact (get_header_mem_iff rw b host meta kOrigin (raw_rewrite rw b host o)).mpr
      (Or.inr (Or.inl ⟨rfl, o, ho, rfl⟩))
  · intro rw b host meta u hu
    exact (get_header_mem_iff rw b host meta kUserAgent u).mpr
      (Or.inr (Or.inr (Or.inl ⟨rfl, hu⟩)))
  · intro rw b host meta x hx
    exact (get_header_mem_iff rw b host meta kXRequestedWith x).mpr
      (Or.inr (Or.inr (Or.inr ⟨rfl, hx⟩)))
  · intro rw b host meta v h
    rcases (get_header_mem_iff rw b host meta kReferer v).mp h with
      ⟨_, hx⟩ | ⟨hk, _⟩ | ⟨hk, _⟩ | ⟨hk, _⟩
    · exact hx
    · exact absurd hk (by decide)
    · exact absurd hk (by decide)
    · exact absurd hk (by decide)
  · intro rw b host meta v h
    rcases (get_header_mem_iff rw b host meta kOrigin v).mp h with
      ⟨hk, _⟩ | ⟨_, hx⟩ | ⟨hk, _⟩ | ⟨hk, _⟩
    · exact absurd hk (by decide)
    · exact hx
    · exact absurd hk (by decide)
    · exact absurd hk (by decide)
  · intro rw b host meta v h
    rcases (get_header_mem_iff rw b host meta kUserAgent v).mp h with
      ⟨hk, _⟩ | ⟨hk, _⟩ | ⟨_, hx⟩ | ⟨hk, _⟩
    · exact absurd hk (by decide)
    · exact absurd hk (by decide)
    · exact hx
    · exact absurd hk (by decide)
  · intro rw b host meta v h
    rcases (get_header_mem_iff rw b host meta kXRequestedWith v).mp h with
      ⟨hk, _⟩ | ⟨hk, _⟩ | ⟨hk, _⟩ | ⟨_, hx⟩
    · exact absurd hk (by decide)
    · exact absurd hk (by decide)
    · exact absurd hk (by decide)
    · exact hx
  · intro rw b host meta v
    refine ⟨?_, ?_, ?_⟩ <;> intro h <;>
      rcases (get_header_mem_iff rw b host meta _ v).mp h with
        ⟨hk, _⟩ | ⟨hk, _⟩ | ⟨hk, _⟩ | ⟨hk, _⟩ <;>
      exact absurd hk (by decide)

/-- C6: with rewriting disabled, `raw_rewrite` is the identity on every
input; with rewriting enabled it replaces every occurrence of the inbound
host by the base URL with its scheme occurrences removed and trailing
slashes stripped, which for `baseURL = "http://origin.example/"` is
`origin.example`; the closed conjunct shows a value with two host
occurrences, both replaced. -/
theorem raw_rewrite_spec :
    (∀ b host c : Str, raw_rewrite false b host c = c)
    ∧ (∀ b host c : Str, raw_rewrite true b host c = pyReplace c host (strippedBaseUrl b))
    ∧ strippedBaseUrl ("http://origin.example/".data) = ("origin.example".data)
    ∧ (∀ host c : Str, raw_rewrite true ("http://origin.example/".data) host c
        = pyReplace c host ("origin.example".data))
    ∧ raw_rewrite true ("http://origin.example/".data) ("proxy.local".data)
        ("see http://proxy.local/a and proxy.local/b".data)
      = ("see http://origin.example/a and origin.example/b".data) :=
  ⟨fun _ _ _ => rfl, fun _ _ _ => rfl, by decide, fun _ _ => rfl, by decide⟩

/-- C7: for every replacement-safe `proxyRoot` and every attribute pattern
of `REWRITE_REGEX`, a quoted value beginning with a single `/` gets
`proxyRoot` and `/` inserted right after the opening quote, while a value
beginning with `//` is left untouched; `proxy_root` is everything before
the last occurrence of the normalized path in the original request path;
and the spec's concrete example bodies evaluate as stated. -/
theorem rewrite_regex_spec :
    (∀ root : Str, plainRewriteRoot root = true → ∀ p, p ∈ rewritePatterns → ∀ t : Str,
        List.isPrefixOf (('/') :: []) t = false →
        regexSub root (p ++ ('/') :: t) = p ++ root ++ ('/') :: regexSub root t)
    ∧ (∀ root : Str, plainRewriteRoot root = true → ∀ p, p ∈ rewritePatterns → ∀ t : Str,
        regexSub root (p ++ ('/') :: ('/') :: t) = p ++ ('/') :: ('/') :: regexSub root t)
    ∧ proxy_root ("/proxy/page".data) ("/page".data) = ("/proxy".data)
    ∧ regexSub ("/proxy".data) ("<img src=\x22/static/a.png\x22>".data)
        = ("<img src=\x22/proxy/static/a.png\x22>".data)
    ∧ regexSub ("/proxy".data) ("<img src=\x22//cdn.example/a.png\x22>".data)
        = ("<img src=\x22//cdn.example/a.png\x22>".data) := by
  refine ⟨?_, ?_, by decide, ?_, ?_⟩
  · intro root _ p hp t ht
    exact regexSub_head_match root p t hp ht
  · intro root _ p hp t
    exact regexSub_skip_protocol root p t hp
  · rw [regexSub_eq_fuel 40 _ (by decide)]
    decide
  · rw [regexSub_eq_fuel 40 _ (by decide)]
    decide

/-- C8 counterexample: the claim says an empty base URL is rejected at
configuration time and per-request processing never runs with one; in the
code, registration with the empty base URL succeeds (it merely stores the
attributes) and the per-request URL builder runs on it, producing `/a`. -/
theorem as_view_accepts_empty_base_url :
    as_view (some []) false = ⟨some [], false⟩
    ∧ get_full_url [] ("/a".data) [] = ("/a".data) := by
  decide

/-- C8 (amended): no configuration-time validation exists — `as_view`
stores whatever base URL it is given, including the empty or missing one,
and per-request processing runs with an empty base URL, building the
scheme-less URL `/` + path (+ query). -/
theorem as_view_no_validation :
    (∀ (b : Option Str) (rw : Bool), (as_view b rw).base_url = b ∧ (as_view b rw).rewrite = rw)
    ∧ (∀ (url : Str) (q : QueryParams),
        get_full_url [] url q
          = ('/') :: (pyLstripSlash url
              ++ (if urlencodeParams q = [] then [] else ('?') :: urlencodeParams q))) :=
  ⟨fun _ _ => ⟨rfl, rfl⟩, fun _ _ => rfl⟩

/-- C9: `normalize_request` prepends `/` to a path not starting with one,
returns a path starting with `/` unchanged, always yields a path starting
with `/`, and is idempotent; the closed conjunct is the mount example. -/
theorem normalize_request_spec :
    (∀ p : Str, List.isPrefixOf (('/') :: []) p = false → normalize_request p = ('/') :: p)
    ∧ (∀ p : Str, List.isPrefixOf (('/') :: []) p = true → normalize_request p = p)
    ∧ (∀ p : Str, List.isPrefixOf (('/') :: []) (normalize_request p) = true)
    ∧ (∀ p : Str, normalize_request (normalize_request p) = normalize_request p)
    ∧ normalize_request ("page".data) = ("/page".data) := by
  refine ⟨?_, ?_, ?_, ?_, by decide⟩
  · intro p h
    simp [normalize_request, h]
  · intro p h
    simp [normalize_request, h]
  · intro p
    cases h : List.isPrefixOf (('/') :: []) p <;>
      simp [normalize_request, h, List.isPrefixOf]
  · intro p
    cases h : List.isPrefixOf (('/') :: []) p <;>
      simp [normalize_request, h, List.isPrefixOf]

/-- C10: when the transport call fails with a network error, the handler
(GET or POST) propagates exactly that error and leaves the stored session
payload exactly as it was — `save_session` on line 124 resp. 145 is only
reached after a successful transport call.  The closed conjunct runs the
GET handler against an always-failing transport. -/
theorem upstream_failure_preserves_session :
    (∀ (t : Transport) (rw : Bool) (b url : Str) (gp : QueryParams) (host : Str)
        (meta : List (Str × Str)) (store : Option StoredPayload) (e : NetworkError),
        t false (get_full_url b url gp) gp (get_header rw b host meta)
            (get_session store) = Except.error e →
        dproxy_get t rw b url gp host meta store = (Except.error e, store))
    ∧ (∀ (t : Transport) (rw : Bool) (b url : Str) (gp fp : QueryParams) (host : Str)
        (meta : List (Str × Str)) (store : Option StoredPayload) (e : NetworkError),
        t false (get_full_url b url gp) fp (get_header rw b host meta)
            (get_session store) = Except.error e →
        dproxy_post t rw b url gp fp host meta store = (Except.error e, store))
    ∧ dproxy_get (fun _ _ _ _ _ => Except.error ⟨("refused".data)⟩) false [] [] [] [] []
        (some (StoredPayload.ok Session.fresh))
        = (Except.error ⟨("refused".data)⟩, some (StoredPayload.ok Session.fresh)) := by
  refine ⟨?_, ?_, rfl⟩
  · intro t rw b url gp host meta store e h
    simp [dproxy_get, h]
  · intro t rw b url gp fp host meta store e h
    simp [dproxy_post, h]
